import Mathlib

/-!
Verification development for the autoregressive text-generation core of the
`laptop_backend` service: the bounded KV/response cache
(`ai/inference/cache_manager.py`), the NPU inference engine
(`ai/inference/npu_engine.py`), the Ollama engine
(`ai/inference/ollama_engine.py`) and the parameter validator
(`ai/utils/model_utils.py`).

Modelling conventions:
- Python floats are modelled as exact rationals (`ℚ`); floating-point
  rounding is out of scope.
- `np.exp` is modelled by an arbitrary function `E : ℚ → ℚ`; the theorems
  that depend on it only assume its strict positivity, which is the sole
  property of `exp` the sampling code relies on.
- A Python 3.7+ `dict` is modelled as an insertion-ordered association list:
  assignment to a present key updates in place, assignment to an absent key
  appends, `next(iter(d))` is the head.
- The external ONNX session (`self.session.run`) is modelled as a function
  from the decode step and the token ids accumulated so far to either the
  last-position logits vector or an exception (`Except.error`).  The
  tokenizer (HuggingFace) is modelled abstractly by its `encode`/`decode`
  functions and `eos_token_id`.
- `np.random.choice` over the nucleus is modelled by an injected pick
  stream `randPick : ℕ → ℕ`; step `s` selects nucleus index
  `randPick s % nucleus.length`.  The renormalisation of the nucleus
  probabilities only shapes the sampling weights, which this abstraction
  subsumes.
-/

-- The Batteries `Rat` arithmetic operations are `@[irreducible]`, which only
-- blocks elaborator-side evaluation (the kernel ignores reducibility).  We
-- restore semireducibility so `decide`/`rfl` can evaluate the embedded
-- programs on concrete rational inputs.
set_option allowUnsafeReducibility true in
attribute [semireducible] Rat.add Rat.mul Rat.sub Rat.inv Rat.ofScientific

set_option maxRecDepth 100000

/-- Value stored in a `KVCacheManager`: an `np.ndarray` abstracted to its
byte size (`nbytes`) plus a payload (the engine stores `np.array(text)`
blobs, for which `str` recovers the payload). -/
structure NDArray (α : Type) where
  nbytes : ℕ
  data : α
deriving DecidableEq

/-- Total tracked byte size of the live entries, `sum(v.nbytes for v in
self.cache.values())`.  The Python code compares the sum divided by `2^20`
(megabytes, exact in our rational idealisation) against
`max_cache_size_mb`; we keep both sides in the same unit, so the guard
`current_size_mb > max_cache_size_mb` becomes `maxCacheSize < totalSize`. -/
def totalSize {α : Type} (c : List (String × NDArray α)) : ℕ :=
  (c.map (fun p => p.2.nbytes)).sum

/-- State of `cache_manager.KVCacheManager`: budget, insertion-ordered dict
of entries, and hit/miss counters. -/
structure KVCacheManager (α : Type) where
  maxCacheSize : ℕ
  cache : List (String × NDArray α)
  cacheHits : ℕ
  cacheMisses : ℕ
deriving DecidableEq

/-- Python dict assignment `d[key] = v`: overwrite in place when the key is
present, append otherwise (insertion order preserved on overwrite). -/
def dictSet {β : Type} (c : List (String × β)) (key : String) (v : β) :
    List (String × β) :=
  if c.any (fun p => p.1 == key) then
    c.map (fun p => if p.1 == key then (key, v) else p)
  else c ++ [(key, v)]

/-- The eviction loop of `KVCacheManager.put`: while the total tracked size
exceeds the budget and the dict is non-empty, delete `next(iter(self.cache))`
— the oldest-inserted entry. -/
def evictLoop {α : Type} (budget : ℕ) :
    List (String × NDArray α) → List (String × NDArray α)
  | [] => []
  | e :: rest =>
    if budget < totalSize (e :: rest) then evictLoop budget rest
    else e :: rest

/-- `KVCacheManager.get`: returns the cached value if present and bumps the
hit counter, else bumps the miss counter; the entries are untouched. -/
def KVCacheManager.get {α : Type} (m : KVCacheManager α) (key : String) :
    Option (NDArray α) × KVCacheManager α :=
  match List.lookup key m.cache with
  | some v => (some v, { m with cacheHits := m.cacheHits + 1 })
  | none => (none, { m with cacheMisses := m.cacheMisses + 1 })

/-- `KVCacheManager.put`: evict (pre-insertion sizes only) while over
budget, then insert/overwrite the new entry. -/
def KVCacheManager.put {α : Type} (m : KVCacheManager α) (key : String)
    (v : NDArray α) : KVCacheManager α :=
  { m with cache := dictSet (evictLoop m.maxCacheSize m.cache) key v }

/-- `KVCacheManager.clear`: drop all entries, reset counters. -/
def KVCacheManager.clear {α : Type} (m : KVCacheManager α) :
    KVCacheManager α :=
  { m with cache := [], cacheHits := 0, cacheMisses := 0 }

/-- Maximum of a list of rationals, `np.max` (0 for the empty list, which
the sampling code never hits). -/
def maxList : List ℚ → ℚ
  | [] => 0
  | x :: xs => xs.foldl max x

/-- Numerically-stable softmax of `_sample_token`:
`probs = np.exp(logits - np.max(logits)); probs = probs / np.sum(probs)`,
with `np.exp` abstracted to `E`. -/
def softmax (E : ℚ → ℚ) (l : List ℚ) : List ℚ :=
  (l.map (fun x => E (x - maxList l))).map
    (fun x => x / (l.map (fun y => E (y - maxList l))).sum)

/-- Stable insertion of index `i` into an index list ascending by `key`. -/
def insertAsc (key : ℕ → ℚ) (i : ℕ) : List ℕ → List ℕ
  | [] => [i]
  | j :: rest =>
    if key i ≤ key j then i :: j :: rest else j :: insertAsc key i rest

/-- Index sort ascending by probability, `np.argsort(probs)`. -/
def argsortAsc (probs : List ℚ) : List ℕ :=
  (List.range probs.length).foldr
    (insertAsc (fun i => probs.getD i 0)) []

/-- `np.argsort(probs)[::-1]`: token indices by descending probability. -/
def argsortDesc (probs : List ℚ) : List ℕ := (argsortAsc probs).reverse

/-- Partial sums, `np.cumsum`. -/
def cumsum : List ℚ → List ℚ
  | [] => []
  | x :: xs => x :: (cumsum xs).map (fun y => x + y)

/-- `np.searchsorted(cum, v)` with the default side `left` on a sorted
array: the first index whose element is `≥ v`, i.e. the length of the
longest prefix of elements `< v` (the cumulative-sum input is
nondecreasing, so this agrees with the binary search). -/
def searchSorted (cum : List ℚ) (v : ℚ) : ℕ :=
  (cum.takeWhile (fun x => decide (x < v))).length

/-- `logits / temperature`, the scaling step of `_sample_token` (the code
first slices `logits[0, -1, :]`; we model the scoring output as that
last-position vector directly). -/
def scaledLogits (logits : List ℚ) (temperature : ℚ) : List ℚ :=
  logits.map (fun x => x / temperature)

/-- The kept nucleus of `_sample_token`:
`sorted_indices[:np.searchsorted(cumulative_probs, top_p) + 1]`. -/
def sampleNucleus (E : ℚ → ℚ) (logits : List ℚ) (temperature topP : ℚ) :
    List ℕ :=
  let probs := softmax E (scaledLogits logits temperature)
  let sortedIndices := argsortDesc probs
  let sortedProbs := sortedIndices.map (fun i => probs.getD i 0)
  let cutoffIdx := searchSorted (cumsum sortedProbs) topP
  sortedIndices.take (cutoffIdx + 1)

/-- `_sample_token`: draw from the kept nucleus.  `np.random.choice` over
the renormalised nucleus probabilities is modelled by the injected pick
`r`, reduced modulo the nucleus size. -/
def sampleToken (E : ℚ → ℚ) (logits : List ℚ) (temperature topP : ℚ)
    (r : ℕ) : ℕ :=
  let nucleus := sampleNucleus E logits temperature topP
  nucleus.getD (r % nucleus.length) 0

/-- The HuggingFace tokenizer, abstracted: `encode prompt` is the
(padded) `input_ids[0].tolist()` produced by `_prepare_inputs`, `decode`
is `tokenizer.decode(·, skip_special_tokens=True)`. -/
structure Tokenizer where
  encode : String → List ℕ
  eosTokenId : ℕ
  decode : List ℕ → String

/-- The ONNX Runtime session (external scoring collaborator):
`session.run` for a given decode step and accumulated token ids either
yields the last-position logits vector or raises (`Except.error`). -/
abbrev Session : Type := ℕ → List ℕ → Except Unit (List ℚ)

/-- Outcome of `NPUInferenceEngine.generate`: the returned string, or the
`RuntimeError` raised when the tokenizer is not loaded. -/
inductive GenResult where
  | text : String → GenResult
  | error : String → GenResult
deriving DecidableEq

/-- State of `NPUInferenceEngine`: optional session (None in simulation
mode), optional tokenizer, env-derived generation defaults, and the
`KVCacheManager` (which `generate` uses as a response cache keyed by
prompt and parameters). -/
structure NPUEngine where
  session : Option Session
  tokenizer : Option Tokenizer
  maxNewTokens : ℕ
  temperature : ℚ
  topP : ℚ
  kvCache : KVCacheManager String

/-- Python `x or default` for an optional int argument: `None` and `0` are
falsy and select the default. -/
def pyOrNat (x : Option ℕ) (d : ℕ) : ℕ :=
  match x with
  | none => d
  | some v => if v = 0 then d else v

/-- Python `x or default` for an optional float argument: `None` and `0.0`
are falsy and select the default. -/
def pyOrRat (x : Option ℚ) (d : ℚ) : ℚ :=
  match x with
  | none => d
  | some v => if v = 0 then d else v

/-- `cache_key = f"{prompt}_{max_new_tokens}_{temperature}_{top_p}"`. -/
def mkCacheKey (prompt : String) (maxNewTokens : ℕ)
    (temperature topP : ℚ) : String :=
  prompt ++ "_" ++ toString maxNewTokens ++ "_" ++ toString temperature
    ++ "_" ++ toString topP

/-- Byte size of `np.array(text)` (a `<U{n}` scalar, 4 bytes per
codepoint); the exact figure is irrelevant to every claim. -/
def strNbytes (s : String) : ℕ := 4 * s.length

/-- `_generate_mock_response`, the simulation-mode placeholder. -/
def mockResponse (prompt : String) : String :=
  "[SIMULATION MODE] Mock response to prompt: '" ++ prompt.take 100
    ++ "...'\n\n"
    ++ "This is a simulated response. To use actual NPU acceleration:\n"
    ++ "1. Quantize your model using QNN tools\n"
    ++ "2. Set QNN_MODEL_CONTEXT environment variable\n"
    ++ "3. Ensure libQnnHtp.so is in LD_LIBRARY_PATH"

/-- The autoregressive loop of `generate` (`for step in
range(max_new_tokens)`), fuelled by the remaining iterations.  Each step
invokes the session (counted, including a failing invocation); on an
exception the loop breaks with the ids accumulated so far; on success the
sampled token is appended and the loop breaks if it is the EOS token.
The per-step KV blobs only feed the next session input (never
`self.kv_cache`), so they are absorbed into `Session`.  Returns the final
`generated_ids` and the number of scoring invocations. -/
def decodeLoop (sess : Session) (eos : ℕ) (E : ℚ → ℚ)
    (randPick : ℕ → ℕ) (temperature topP : ℚ) :
    ℕ → ℕ → List ℕ → List ℕ × ℕ
  | 0, _, ids => (ids, 0)
  | fuel + 1, step, ids =>
    match sess step ids with
    | .error _ => (ids, 1)
    | .ok logits =>
      let next := sampleToken E logits temperature topP (randPick step)
      let ids2 := ids ++ [next]
      if next = eos then (ids2, 1)
      else
        let rest :=
          decodeLoop sess eos E randPick temperature topP fuel
            (step + 1) ids2
        (rest.1, rest.2 + 1)

/-- Tail of `generate` after the cache lookup missed (or was skipped):
simulation-mode mock response when the session is absent, otherwise the
decode loop followed by `tokenizer.decode`; in both branches the result is
stored in the cache when `use_cache` holds.  `kv1` is the cache state
after the lookup.  Also returns the scoring-invocation count. -/
def generateBody (e : NPUEngine) (tok : Tokenizer) (E : ℚ → ℚ)
    (randPick : ℕ → ℕ) (prompt : String) (maxNewTokens : ℕ)
    (temperature topP : ℚ) (key : String) (kv1 : KVCacheManager String)
    (useCache : Bool) : GenResult × NPUEngine × ℕ :=
  match e.session with
  | none =>
    let mock := mockResponse prompt
    (GenResult.text mock,
      { e with kvCache :=
          if useCache then kv1.put key (NDArray.mk (strNbytes mock) mock)
          else kv1 }, 0)
  | some sess =>
    let res :=
      decodeLoop sess tok.eosTokenId E randPick temperature topP
        maxNewTokens 0 (tok.encode prompt)
    let text := tok.decode res.1
    (GenResult.text text,
      { e with kvCache :=
          if useCache then kv1.put key (NDArray.mk (strNbytes text) text)
          else kv1 }, res.2)

/-- `NPUInferenceEngine.generate`: raise if the tokenizer is missing;
resolve falsy parameters to the engine defaults (`x or self.x`); when
`use_cache` holds, look the request fingerprint up in the cache and return
`str(cached)` on a hit; otherwise run `generateBody`.  The third component
counts `session.run` invocations. -/
def NPUEngine.generate (e : NPUEngine) (E : ℚ → ℚ) (randPick : ℕ → ℕ)
    (prompt : String) (maxNewTokens? : Option ℕ)
    (temperature? topP? : Option ℚ) (useCache : Bool) :
    GenResult × NPUEngine × ℕ :=
  match e.tokenizer with
  | none => (GenResult.error "Engine not initialized. Tokenizer not loaded.", e, 0)
  | some tok =>
    let maxNewTokens := pyOrNat maxNewTokens? e.maxNewTokens
    let temperature := pyOrRat temperature? e.temperature
    let topP := pyOrRat topP? e.topP
    let key := mkCacheKey prompt maxNewTokens temperature topP
    if useCache then
      match KVCacheManager.get e.kvCache key with
      | (some v, kv1) => (GenResult.text v.data, { e with kvCache := kv1 }, 0)
      | (none, kv1) =>
        generateBody e tok E randPick prompt maxNewTokens temperature topP
          key kv1 true
    else
      generateBody e tok E randPick prompt maxNewTokens temperature topP
        key e.kvCache false

/-- State of `OllamaEngine`: generation defaults and the plain response
cache dict with its counters. -/
structure OllamaEngine where
  maxNewTokens : ℕ
  temperature : ℚ
  cache : List (String × String)
  cacheHits : ℕ
  cacheMisses : ℕ

/-- The Ollama HTTP collaborator (`requests.post` to `/api/generate`):
from prompt, `num_predict`, temperature and `top_p` to the response text
or a raised error (non-200 status, timeout, connection failure). -/
abbrev OllamaBackend : Type := String → ℕ → ℚ → ℚ → Except Unit String

/-- `OllamaEngine._get_cache_key` builds
`md5(f"{prompt}_{max_new_tokens}_{temperature}")`; we keep the pre-hash
string (the md5 digest adds nothing but fixed-width encoding here, and the
documented collision risk is out of scope).  Note: `top_p` is not part of
the key. -/
def ollamaCacheKey (prompt : String) (maxNewTokens : ℕ)
    (temperature : ℚ) : String :=
  prompt ++ "_" ++ toString maxNewTokens ++ "_" ++ toString temperature

/-- `OllamaEngine.generate`: resolve falsy parameters (`top_p` defaults to
the literal `0.9`), consult the response cache when `use_cache` holds,
otherwise call the backend, cache a successful response, re-raise a
failure.  The third component counts backend invocations. -/
def OllamaEngine.generate (o : OllamaEngine) (backend : OllamaBackend)
    (prompt : String) (maxNewTokens? : Option ℕ)
    (temperature? topP? : Option ℚ) (useCache : Bool) :
    Except Unit String × OllamaEngine × ℕ :=
  let maxNewTokens := pyOrNat maxNewTokens? o.maxNewTokens
  let temperature := pyOrRat temperature? o.temperature
  let topP := pyOrRat topP? (9/10)
  if useCache then
    let key := ollamaCacheKey prompt maxNewTokens temperature
    match List.lookup key o.cache with
    | some v => (Except.ok v, { o with cacheHits := o.cacheHits + 1 }, 0)
    | none =>
      let o1 := { o with cacheMisses := o.cacheMisses + 1 }
      match backend prompt maxNewTokens temperature topP with
      | Except.error er => (Except.error er, o1, 1)
      | Except.ok text =>
        (Except.ok text, { o1 with cache := dictSet o1.cache key text }, 1)
  else
    match backend prompt maxNewTokens temperature topP with
    | Except.error er => (Except.error er, o, 1)
    | Except.ok text => (Except.ok text, o, 1)

/-- `model_utils.validate_generation_params`, `top_p` leg. -/
def validateTopP (topP? : Option ℚ) : Bool × Option String :=
  match topP? with
  | none => (true, none)
  | some p =>
    if 0 < p ∧ p ≤ 1 then (true, none)
    else (false, some "top_p must be between 0 and 1")

/-- `model_utils.validate_generation_params`, temperature leg (the
`isinstance` checks are subsumed by typing). -/
def validateTemperature (temperature? topP? : Option ℚ) :
    Bool × Option String :=
  match temperature? with
  | none => validateTopP topP?
  | some t =>
    if t ≤ 0 then (false, some "temperature must be a positive number")
    else if 2 < t then
      (false, some "temperature should not exceed 2.0 for stable generation")
    else validateTopP topP?

/-- `model_utils.validate_generation_params`.  Defined in the source tree
and exported, but never invoked by any engine or route. -/
def validateGenerationParams (maxNewTokens? : Option ℤ)
    (temperature? topP? : Option ℚ) : Bool × Option String :=
  match maxNewTokens? with
  | none => validateTemperature temperature? topP?
  | some m =>
    if m ≤ 0 then (false, some "max_new_tokens must be a positive integer")
    else if 2048 < m then (false, some "max_new_tokens cannot exceed 2048")
    else validateTemperature temperature? topP?

/-- Concrete single-token-vocabulary tokenizer for test scenarios: the
prompt encodes to `[5]`, decoding renders the id list.  Its EOS id `7` is
never producible by a width-1 logits vector, so decoding runs to the
failure point or the token budget. -/
def cexTokNoEos : Tokenizer :=
  { encode := fun _ => [5], eosTokenId := 7,
    decode := fun ids => toString ids }

/-- Concrete tokenizer whose EOS id `0` is the only sampleable token of a
width-1 logits vector: the first decode step terminates generation. -/
def cexTokEos : Tokenizer :=
  { encode := fun _ => [5], eosTokenId := 0,
    decode := fun ids => toString ids }

/-- Stub session that always succeeds with the width-1 logits `[0]`. -/
def cexSessionOk : Session := fun _ _ => Except.ok [0]

/-- Stub session that succeeds with width-1 logits on decode step 0 and
raises on every later step. -/
def cexSessionFailAt1 : Session := fun step _ =>
  if step = 0 then Except.ok [0] else Except.error ()

/-- Engine whose scoring fails from decode step 1 on. -/
def cexEngineFailAt1 : NPUEngine :=
  { session := some cexSessionFailAt1, tokenizer := some cexTokNoEos,
    maxNewTokens := 10, temperature := 7/10, topP := 9/10,
    kvCache := KVCacheManager.mk 536870912 [] 0 0 }

/-- Engine with a healthy scoring stub and a non-EOS-producing tokenizer. -/
def cexEngineOk : NPUEngine :=
  { session := some cexSessionOk, tokenizer := some cexTokNoEos,
    maxNewTokens := 10, temperature := 7/10, topP := 9/10,
    kvCache := KVCacheManager.mk 536870912 [] 0 0 }

/-- Engine whose scoring stub makes step 1 sample the EOS token. -/
def cexEngineEos : NPUEngine :=
  { session := some cexSessionOk, tokenizer := some cexTokEos,
    maxNewTokens := 10, temperature := 7/10, topP := 9/10,
    kvCache := KVCacheManager.mk 536870912 [] 0 0 }

/-- Engine in simulation mode: session creation failed or the context
binary was missing, so `self.session is None`. -/
def cexEngineSim : NPUEngine :=
  { session := none, tokenizer := some cexTokNoEos,
    maxNewTokens := 10, temperature := 7/10, topP := 9/10,
    kvCache := KVCacheManager.mk 536870912 [] 0 0 }

/-- Fresh Ollama engine with the usual env defaults and an empty cache. -/
def cexOllama : OllamaEngine :=
  { maxNewTokens := 512, temperature := 7/10, cache := [],
    cacheHits := 0, cacheMisses := 0 }

/-- Ollama backend stub that always answers with a fixed response. -/
def cexOllamaBackend : OllamaBackend := fun _ _ _ _ => Except.ok "hi"

/-- Within-budget cache with two live entries, for the put-overwrite
scenario. -/
def c10CacheFixture : KVCacheManager Unit :=
  { maxCacheSize := 100,
    cache := [("a", NDArray.mk 60 ()), ("b", NDArray.mk 30 ())],
    cacheHits := 0, cacheMisses := 0 }

theorem lookup_map_overwrite {β : Type} (k : String) (v : β) :
    ∀ c : List (String × β), c.any (fun p => p.1 == k) = true →
      List.lookup k (c.map (fun p => if p.1 == k then (k, v) else p))
        = some v := by
  intro c
  induction c with
  | nil => intro h; simp at h
  | cons a t ih =>
    intro h
    rcases a with ⟨a1, a2⟩
    simp only [List.map_cons]
    by_cases ha : a1 = k
    · have hhead :
          (if ((a1, a2).1 == k) = true then (k, v) else (a1, a2)) = (k, v) := by
        simp [ha]
      rw [hhead]
      simp [List.lookup]
    · have hhead :
          (if ((a1, a2).1 == k) = true then (k, v) else (a1, a2))
            = (a1, a2) := by
        simp [ha]
      rw [hhead]
      have h' : t.any (fun p => p.1 == k) = true := by
        simpa [List.any_cons, ha] using h
      have hk : (k == a1) = false := beq_eq_false_iff_ne.mpr (Ne.symm ha)
      simpa [List.lookup, hk] using ih h'

theorem lookup_append_single {β : Type} (k : String) (v : β) :
    ∀ c : List (String × β), c.any (fun p => p.1 == k) = false →
      List.lookup k (c ++ [(k, v)]) = some v := by
  intro c
  induction c with
  | nil => intro _; simp [List.lookup]
  | cons a t ih =>
    intro h
    rcases a with ⟨a1, a2⟩
    have ha : (a1 == k) = false := by
      by_contra hcon
      have : (a1 == k) = true := by
        cases hb : (a1 == k) <;> simp_all
      simp [List.any_cons, this] at h
    have h' : t.any (fun p => p.1 == k) = false := by
      cases hany : t.any (fun p => p.1 == k) <;> simp_all [List.any_cons]
    have hk : (k == a1) = false :=
      beq_eq_false_iff_ne.mpr (Ne.symm (beq_eq_false_iff_ne.mp ha))
    simpa [List.cons_append, List.lookup, hk] using ih h'

theorem lookup_dictSet_self {β : Type} (k : String) (v : β)
    (c : List (String × β)) : List.lookup k (dictSet c k v) = some v := by
  unfold dictSet
  cases h : c.any (fun p => p.1 == k) with
  | true => simpa [h] using lookup_map_overwrite k v c h
  | false => simpa [h] using lookup_append_single k v c h

theorem get_snd_cache {α : Type} (m : KVCacheManager α) (k : String) :
    ((m.get k).2).cache = m.cache := by
  unfold KVCacheManager.get
  cases List.lookup k m.cache <;> rfl

theorem evictLoop_eq_drop {α : Type} (budget : ℕ) :
    ∀ c : List (String × NDArray α), ∃ n, evictLoop budget c = c.drop n := by
  intro c
  induction c with
  | nil => exact ⟨0, rfl⟩
  | cons e rest ih =>
    by_cases h : budget < totalSize (e :: rest)
    · obtain ⟨n, hn⟩ := ih
      exact ⟨n + 1, by simpa [evictLoop, h] using hn⟩
    · exact ⟨0, by simp [evictLoop, h]⟩

theorem evictLoop_of_le {α : Type} (budget : ℕ)
    (c : List (String × NDArray α)) (h : totalSize c ≤ budget) :
    evictLoop budget c = c := by
  cases c with
  | nil => rfl
  | cons e rest => simp [evictLoop, Nat.not_lt.mpr h]

theorem dictSet_keys_of_mem {β : Type} (k : String) (v : β)
    (c : List (String × β)) (h : c.any (fun p => p.1 == k) = true) :
    (dictSet c k v).map Prod.fst = c.map Prod.fst := by
  unfold dictSet
  simp only [h, if_true, List.map_map]
  apply List.map_congr_left
  intro p hp
  by_cases hpk : p.1 = k
  · simp [hpk]
  · simp [hpk]

theorem sum_map_div (l : List ℚ) (c : ℚ) :
    (l.map (fun x => x / c)).sum = l.sum / c := by
  induction l with
  | nil => simp
  | cons a t ih => simp [ih, add_div]

theorem exps_sum_pos (E : ℚ → ℚ) (hE : ∀ x, 0 < E x) (l : List ℚ)
    (hl : l ≠ []) : 0 < (l.map (fun x => E (x - maxList l))).sum := by
  apply List.sum_pos
  · intro q hq
    obtain ⟨x, _, rfl⟩ := List.mem_map.mp hq
    exact hE _
  · intro hcon
    apply hl
    simpa using hcon

theorem softmax_length (E : ℚ → ℚ) (l : List ℚ) :
    (softmax E l).length = l.length := by simp [softmax]

theorem softmax_sum (E : ℚ → ℚ) (hE : ∀ x, 0 < E x) (l : List ℚ)
    (hl : l ≠ []) : (softmax E l).sum = 1 := by
  unfold softmax
  rw [sum_map_div]
  exact div_self (ne_of_gt (exps_sum_pos E hE l hl))

theorem softmax_pos (E : ℚ → ℚ) (hE : ∀ x, 0 < E x) (l : List ℚ)
    (hl : l ≠ []) : ∀ q ∈ softmax E l, 0 < q := by
  intro q hq
  unfold softmax at hq
  obtain ⟨x, hx, rfl⟩ := List.mem_map.mp hq
  obtain ⟨y, _, rfl⟩ := List.mem_map.mp hx
  exact div_pos (hE _) (exps_sum_pos E hE l hl)

theorem insertAsc_perm (key : ℕ → ℚ) (i : ℕ) :
    ∀ l : List ℕ, (insertAsc key i l).Perm (i :: l) := by
  intro l
  induction l with
  | nil => simp [insertAsc]
  | cons j rest ih =>
    unfold insertAsc
    by_cases h : key i ≤ key j
    · rw [if_pos h]
    · rw [if_neg h]
      exact (ih.cons j).trans (List.Perm.swap i j rest)

theorem argsortAsc_perm (probs : List ℚ) :
    (argsortAsc probs).Perm (List.range probs.length) := by
  unfold argsortAsc
  generalize List.range probs.length = xs
  induction xs with
  | nil => simp
  | cons x t ih =>
    simp only [List.foldr_cons]
    exact (insertAsc_perm _ x _).trans (ih.cons x)

theorem argsortDesc_perm (probs : List ℚ) :
    (argsortDesc probs).Perm (List.range probs.length) :=
  (List.reverse_perm _).trans (argsortAsc_perm probs)

theorem length_argsortDesc (probs : List ℚ) :
    (argsortDesc probs).length = probs.length := by
  simpa using (argsortDesc_perm probs).length_eq

theorem mem_argsortDesc_lt (probs : List ℚ) :
    ∀ i ∈ argsortDesc probs, i < probs.length := by
  intro i hi
  exact List.mem_range.mp ((argsortDesc_perm probs).mem_iff.mp hi)

theorem map_getD_range (l : List ℚ) :
    (List.range l.length).map (fun i => l.getD i 0) = l := by
  apply List.ext_getElem
  · simp
  · intro i h1 h2
    simp [List.getElem_map, List.getElem_range,
      List.getD_eq_getElem?_getD, List.getElem?_eq_getElem h2]

theorem cumsum_length (l : List ℚ) : (cumsum l).length = l.length := by
  induction l with
  | nil => rfl
  | cons x xs ih => simp [cumsum, ih]

theorem cumsum_getD (l : List ℚ) :
    ∀ i, i < l.length → (cumsum l).getD i 0 = (l.take (i + 1)).sum := by
  induction l with
  | nil => intro i h; simp at h
  | cons x xs ih =>
    intro i h
    cases i with
    | zero => simp [cumsum]
    | succ n =>
      have hn : n < xs.length := Nat.lt_of_succ_lt_succ h
      have hc : n < (cumsum xs).length := by
        rw [cumsum_length]; exact hn
      have hmap : n < ((cumsum xs).map (fun y => x + y)).length := by
        simpa using hc
      calc (cumsum (x :: xs)).getD (n + 1) 0
          = ((cumsum xs).map (fun y => x + y)).getD n 0 := by
            simp [cumsum]
        _ = x + (cumsum xs).getD n 0 := by
            rw [List.getD_eq_getElem?_getD, List.getD_eq_getElem?_getD,
              List.getElem?_eq_getElem hmap, List.getElem?_eq_getElem hc]
            simp
        _ = x + (xs.take (n + 1)).sum := by rw [ih n hn]
        _ = ((x :: xs).take (n + 1 + 1)).sum := by
            simp [List.take_succ_cons]

theorem dropWhile_head_false {α : Type} (p : α → Bool) :
    ∀ (l : List α) (x : α), (l.dropWhile p).head? = some x →
      p x = false := by
  intro l
  induction l with
  | nil => intro x h; simp [List.dropWhile] at h
  | cons a t ih =>
    intro x h
    by_cases ha : p a = true
    · rw [List.dropWhile_cons] at h
      simp only [ha, if_true] at h
      exact ih x h
    · have ha' : p a = false := by
        cases hb : p a
        · rfl
        · exact absurd hb ha
      rw [List.dropWhile_cons] at h
      simp only [ha', Bool.false_eq_true, if_false, List.head?_cons,
        Option.some.injEq] at h
      rw [← h]
      exact ha'

theorem sampleNucleus_eq (E : ℚ → ℚ) (logits : List ℚ)
    (temperature topP : ℚ) :
    sampleNucleus E logits temperature topP =
      (argsortDesc (softmax E (scaledLogits logits temperature))).take
        (searchSorted (cumsum
          ((argsortDesc (softmax E (scaledLogits logits temperature))).map
            (fun i =>
              (softmax E (scaledLogits logits temperature)).getD i 0)))
          topP + 1) := rfl

theorem sampleNucleus_spec (E : ℚ → ℚ) (hE : ∀ x, 0 < E x)
    (logits : List ℚ) (hl : logits ≠ []) (temperature topP : ℚ)
    (hp1 : topP ≤ 1) :
    sampleNucleus E logits temperature topP ≠ [] ∧
    (∀ i ∈ sampleNucleus E logits temperature topP, i < logits.length) ∧
    topP ≤ ((sampleNucleus E logits temperature topP).map
      (fun i =>
        (softmax E (scaledLogits logits temperature)).getD i 0)).sum ∧
    ((sampleNucleus E logits temperature topP).length = logits.length →
      ((sampleNucleus E logits temperature topP).map
        (fun i =>
          (softmax E (scaledLogits logits temperature)).getD i 0)).sum
        = 1) := by
  have hscaled_ne : scaledLogits logits temperature ≠ [] := by
    intro hcon
    apply hl
    simpa [scaledLogits] using hcon
  have hplen :
      (softmax E (scaledLogits logits temperature)).length
        = logits.length := by
    simp [softmax_length, scaledLogits]
  set probs := softmax E (scaledLogits logits temperature) with hprobs
  have hppos : ∀ q ∈ probs, 0 < q := softmax_pos E hE _ hscaled_ne
  have hpsum : probs.sum = 1 := softmax_sum E hE _ hscaled_ne
  set sIdx := argsortDesc probs with hsidx
  set sProbs := sIdx.map (fun i => probs.getD i 0) with hsprobs
  have hslen : sIdx.length = probs.length := length_argsortDesc probs
  have hsplen : sProbs.length = probs.length := by
    rw [hsprobs, List.length_map, hslen]
  have hsp_sum : sProbs.sum = 1 := by
    have hperm := (argsortDesc_perm probs).map (fun i => probs.getD i 0)
    rw [hsprobs, hperm.sum_eq, map_getD_range probs, hpsum]
  set cum := cumsum sProbs with hcum
  have hcumlen : cum.length = probs.length := by
    rw [hcum, cumsum_length, hsplen]
  have hn : 0 < probs.length := by
    rw [hplen]
    exact List.length_pos.mpr hl
  have hlast : cum.getD (probs.length - 1) 0 = 1 := by
    rw [hcum, cumsum_getD sProbs _ (by omega)]
    have htake : sProbs.take (probs.length - 1 + 1) = sProbs := by
      apply List.take_of_length_le
      omega
    rw [htake, hsp_sum]
  have hdw : cum.dropWhile (fun x => decide (x < topP)) ≠ [] := by
    intro hnil
    have hall := List.dropWhile_eq_nil_iff.mp hnil
    have hmemlast : cum.getD (probs.length - 1) 0 ∈ cum := by
      have hlt : probs.length - 1 < cum.length := by omega
      rw [List.getD_eq_getElem?_getD, List.getElem?_eq_getElem hlt]
      exact List.getElem_mem hlt
    have h1 := hall _ hmemlast
    rw [hlast] at h1
    have : (1 : ℚ) < topP := by simpa using h1
    exact absurd this (not_lt.mpr hp1)
  have hcut : searchSorted cum topP < cum.length := by
    unfold searchSorted
    have h1 :
        (cum.takeWhile (fun x => decide (x < topP))).length
          + (cum.dropWhile (fun x => decide (x < topP))).length
          = cum.length := by
      rw [← List.length_append, List.takeWhile_append_dropWhile]
    have h2 : 0 < (cum.dropWhile (fun x => decide (x < topP))).length :=
      List.length_pos.mpr hdw
    omega
  have hge : topP ≤ cum.getD (searchSorted cum topP) 0 := by
    obtain ⟨hd, tl, hht⟩ :
        ∃ hd tl, cum.dropWhile (fun x => decide (x < topP)) = hd :: tl := by
      cases hdd : cum.dropWhile (fun x => decide (x < topP)) with
      | nil => exact absurd hdd hdw
      | cons hd tl => exact ⟨hd, tl, rfl⟩
    set A := cum.takeWhile (fun x => decide (x < topP)) with hAdef
    have hsplit : cum = A ++ (hd :: tl) := by
      conv_lhs => rw [← List.takeWhile_append_dropWhile
        (p := fun x => decide (x < topP)) (l := cum)]
      rw [hht]
    have hA : searchSorted cum topP = A.length := rfl
    have hidx : cum.getD (searchSorted cum topP) 0 = hd := by
      rw [hA]
      conv_lhs => rw [hsplit]
      rw [List.getD_eq_getElem?_getD,
        List.getElem?_append_right (le_refl A.length)]
      simp
    have hph := dropWhile_head_false (fun x => decide (x < topP)) cum hd
      (by rw [hht]; rfl)
    rw [hidx]
    have : ¬ hd < topP := by simpa using hph
    exact not_lt.mp this
  set cutoff := searchSorted cum topP with hcutoff
  have hcut' : cutoff < probs.length := by
    rw [← hcumlen]
    exact hcut
  have hnuc : sampleNucleus E logits temperature topP
      = sIdx.take (cutoff + 1) := sampleNucleus_eq E logits temperature topP
  have hkept_map :
      (sampleNucleus E logits temperature topP).map
        (fun i => probs.getD i 0) = sProbs.take (cutoff + 1) := by
    rw [hnuc, hsprobs, List.map_take]
  have hkept_sum :
      ((sampleNucleus E logits temperature topP).map
        (fun i => probs.getD i 0)).sum = cum.getD cutoff 0 := by
    rw [hkept_map, hcum, cumsum_getD sProbs _ (by omega)]
  refine ⟨?_, ?_, ?_, ?_⟩
  · rw [hnuc]
    intro hcon
    have := congrArg List.length hcon
    rw [List.length_take] at this
    simp only [List.length_nil] at this
    omega
  · intro i hi
    rw [hnuc] at hi
    have : i ∈ sIdx := List.take_subset _ _ hi
    rw [← hplen]
    exact mem_argsortDesc_lt probs i this
  · rw [hkept_sum]
    exact hge
  · intro hlen
    have hlen' : (sIdx.take (cutoff + 1)).length = probs.length := by
      rw [← hnuc, hlen, hplen]
    rw [List.length_take] at hlen'
    have : sIdx.length ≤ cutoff + 1 := by omega
    rw [hkept_map, List.take_of_length_le (by omega), hsp_sum]

theorem any_of_lookup_eq_some {β : Type} (k : String) (v : β) :
    ∀ c : List (String × β), List.lookup k c = some v →
      c.any (fun p => p.1 == k) = true := by
  intro c
  induction c with
  | nil => intro h; simp [List.lookup] at h
  | cons a t ih =>
    intro h
    rcases a with ⟨a1, a2⟩
    by_cases hk : k = a1
    · subst hk
      simp [List.any_cons]
    · have hkb : (k == a1) = false := beq_eq_false_iff_ne.mpr hk
      rw [List.lookup] at h
      rw [hkb] at h
      simp [List.any_cons, ih h]

theorem sampleToken_mem_nucleus (E : ℚ → ℚ) (logits : List ℚ)
    (temperature topP : ℚ) (r : ℕ)
    (hne : sampleNucleus E logits temperature topP ≠ []) :
    sampleToken E logits temperature topP r
      ∈ sampleNucleus E logits temperature topP := by
  unfold sampleToken
  have hlen : 0 < (sampleNucleus E logits temperature topP).length :=
    List.length_pos.mpr hne
  have hmod :
      r % (sampleNucleus E logits temperature topP).length
        < (sampleNucleus E logits temperature topP).length :=
    Nat.mod_lt _ hlen
  rw [List.getD_eq_getElem?_getD, List.getElem?_eq_getElem hmod]
  simp only [Option.getD_some]
  exact List.getElem_mem hmod

theorem generate_noCache (e : NPUEngine) (tok : Tokenizer) (E : ℚ → ℚ)
    (rp : ℕ → ℕ) (prompt : String) (mnt? : Option ℕ)
    (temp? topP? : Option ℚ) (htok : e.tokenizer = some tok) :
    e.generate E rp prompt mnt? temp? topP? false =
      generateBody e tok E rp prompt (pyOrNat mnt? e.maxNewTokens)
        (pyOrRat temp? e.temperature) (pyOrRat topP? e.topP)
        (mkCacheKey prompt (pyOrNat mnt? e.maxNewTokens)
          (pyOrRat temp? e.temperature) (pyOrRat topP? e.topP))
        e.kvCache false := by
  simp [NPUEngine.generate, htok]

theorem generate_cache_hit (e : NPUEngine) (tok : Tokenizer) (E : ℚ → ℚ)
    (rp : ℕ → ℕ) (prompt : String) (mnt? : Option ℕ)
    (temp? topP? : Option ℚ) (v : NDArray String)
    (htok : e.tokenizer = some tok)
    (h : List.lookup (mkCacheKey prompt (pyOrNat mnt? e.maxNewTokens)
      (pyOrRat temp? e.temperature) (pyOrRat topP? e.topP))
      e.kvCache.cache = some v) :
    e.generate E rp prompt mnt? temp? topP? true =
      (GenResult.text v.data,
        { e with kvCache :=
            { e.kvCache with cacheHits := e.kvCache.cacheHits + 1 } },
        0) := by
  simp [NPUEngine.generate, htok, KVCacheManager.get, h]

theorem generate_hit_projections (e : NPUEngine) (tok : Tokenizer)
    (E : ℚ → ℚ) (rp : ℕ → ℕ) (prompt : String) (mnt? : Option ℕ)
    (temp? topP? : Option ℚ) (v : NDArray String)
    (htok : e.tokenizer = some tok)
    (h : List.lookup (mkCacheKey prompt (pyOrNat mnt? e.maxNewTokens)
      (pyOrRat temp? e.temperature) (pyOrRat topP? e.topP))
      e.kvCache.cache = some v) :
    (e.generate E rp prompt mnt? temp? topP? true).1
      = GenResult.text v.data ∧
    (e.generate E rp prompt mnt? temp? topP? true).2.2 = 0 := by
  rw [generate_cache_hit e tok E rp prompt mnt? temp? topP? v htok h]
  exact ⟨rfl, rfl⟩

theorem generate_cache_miss (e : NPUEngine) (tok : Tokenizer) (E : ℚ → ℚ)
    (rp : ℕ → ℕ) (prompt : String) (mnt? : Option ℕ)
    (temp? topP? : Option ℚ) (htok : e.tokenizer = some tok)
    (h : List.lookup (mkCacheKey prompt (pyOrNat mnt? e.maxNewTokens)
      (pyOrRat temp? e.temperature) (pyOrRat topP? e.topP))
      e.kvCache.cache = none) :
    e.generate E rp prompt mnt? temp? topP? true =
      generateBody e tok E rp prompt (pyOrNat mnt? e.maxNewTokens)
        (pyOrRat temp? e.temperature) (pyOrRat topP? e.topP)
        (mkCacheKey prompt (pyOrNat mnt? e.maxNewTokens)
          (pyOrRat temp? e.temperature) (pyOrRat topP? e.topP))
        { e.kvCache with cacheMisses := e.kvCache.cacheMisses + 1 }
        true := by
  simp [NPUEngine.generate, htok, KVCacheManager.get, h]

theorem generateBody_spec_cached (e : NPUEngine) (tok : Tokenizer)
    (E : ℚ → ℚ) (rp : ℕ → ℕ) (prompt : String) (mnt : ℕ) (temp tp : ℚ)
    (key : String) (kv1 : KVCacheManager String) :
    ∃ s n, generateBody e tok E rp prompt mnt temp tp key kv1 true =
      (GenResult.text s,
        { e with kvCache := kv1.put key (NDArray.mk (strNbytes s) s) },
        n) := by
  cases hs : e.session with
  | none => exact ⟨mockResponse prompt, 0, by simp [generateBody, hs]⟩
  | some sess =>
    exact ⟨tok.decode (decodeLoop sess tok.eosTokenId E rp temp tp
        mnt 0 (tok.encode prompt)).1,
      (decodeLoop sess tok.eosTokenId E rp temp tp
        mnt 0 (tok.encode prompt)).2, by simp [generateBody, hs]⟩

theorem generateBody_text (e : NPUEngine) (tok : Tokenizer)
    (E : ℚ → ℚ) (rp : ℕ → ℕ) (prompt : String) (mnt : ℕ) (temp tp : ℚ)
    (key : String) (kv1 : KVCacheManager String) (uc : Bool) :
    ∃ s, (generateBody e tok E rp prompt mnt temp tp key kv1 uc).1 =
      GenResult.text s := by
  cases hs : e.session with
  | none => exact ⟨mockResponse prompt, by simp [generateBody, hs]⟩
  | some sess =>
    exact ⟨tok.decode (decodeLoop sess tok.eosTokenId E rp temp tp
        mnt 0 (tok.encode prompt)).1, by simp [generateBody, hs]⟩

theorem decodeLoop_error (sess : Session) (eos : ℕ) (E : ℚ → ℚ)
    (rp : ℕ → ℕ) (temp tp : ℚ) (fuel step : ℕ) (ids : List ℕ)
    (h : sess step ids = Except.error ()) :
    decodeLoop sess eos E rp temp tp (fuel + 1) step ids = (ids, 1) := by
  simp [decodeLoop, h]

theorem decodeLoop_eos (sess : Session) (eos : ℕ) (E : ℚ → ℚ)
    (rp : ℕ → ℕ) (temp tp : ℚ) (fuel step : ℕ) (ids : List ℕ)
    (logits : List ℚ) (h : sess step ids = Except.ok logits)
    (he : sampleToken E logits temp tp (rp step) = eos) :
    decodeLoop sess eos E rp temp tp (fuel + 1) step ids
      = (ids ++ [eos], 1) := by
  simp [decodeLoop, h, he]

theorem decodeLoop_cont (sess : Session) (eos : ℕ) (E : ℚ → ℚ)
    (rp : ℕ → ℕ) (temp tp : ℚ) (fuel step : ℕ) (ids : List ℕ)
    (logits : List ℚ) (h : sess step ids = Except.ok logits)
    (he : sampleToken E logits temp tp (rp step) ≠ eos) :
    decodeLoop sess eos E rp temp tp (fuel + 1) step ids
      = ((decodeLoop sess eos E rp temp tp fuel (step + 1)
          (ids ++ [sampleToken E logits temp tp (rp step)])).1,
        (decodeLoop sess eos E rp temp tp fuel (step + 1)
          (ids ++ [sampleToken E logits temp tp (rp step)])).2 + 1) := by
  simp [decodeLoop, h, he]

theorem decodeLoop_run_then_fail (sess : Session) (eos : ℕ) (E : ℚ → ℚ)
    (rp : ℕ → ℕ) (temp tp : ℚ) :
    ∀ (ts : List ℕ) (fuel step : ℕ) (ids : List ℕ),
    (∀ i, i < ts.length →
      ∃ l, sess (step + i) (ids ++ ts.take i) = Except.ok l ∧
        sampleToken E l temp tp (rp (step + i)) = ts.getD i 0 ∧
        ts.getD i 0 ≠ eos) →
    sess (step + ts.length) (ids ++ ts) = Except.error () →
    ts.length < fuel →
    decodeLoop sess eos E rp temp tp fuel step ids
      = (ids ++ ts, ts.length + 1) := by
  intro ts
  induction ts with
  | nil =>
    intro fuel step ids _ hfail hfuel
    obtain ⟨f, rfl⟩ : ∃ f, fuel = f + 1 := ⟨fuel - 1, by omega⟩
    have hfail' : sess step ids = Except.error () := by simpa using hfail
    rw [decodeLoop_error sess eos E rp temp tp f step ids hfail']
    simp
  | cons t ts' ih =>
    intro fuel step ids hsteps hfail hfuel
    obtain ⟨f, rfl⟩ : ∃ f, fuel = f + 1 := ⟨fuel - 1, by omega⟩
    obtain ⟨l, hl, hsamp, hne⟩ := hsteps 0 (by simp)
    have hl' : sess step ids = Except.ok l := by simpa using hl
    have hsamp' : sampleToken E l temp tp (rp step) = t := by
      simpa using hsamp
    have hne' : t ≠ eos := by simpa using hne
    rw [decodeLoop_cont sess eos E rp temp tp f step ids l hl'
      (by rw [hsamp']; exact hne'), hsamp']
    have hsteps' : ∀ i, i < ts'.length →
        ∃ l2, sess ((step + 1) + i) ((ids ++ [t]) ++ ts'.take i)
            = Except.ok l2 ∧
          sampleToken E l2 temp tp (rp ((step + 1) + i)) = ts'.getD i 0 ∧
          ts'.getD i 0 ≠ eos := by
      intro i hi
      obtain ⟨l2, hl2, hs2, hn2⟩ := hsteps (i + 1)
        (by simp only [List.length_cons]; omega)
      have e1 : (step + 1) + i = step + (i + 1) := by omega
      have e2 : (ids ++ [t]) ++ ts'.take i
          = ids ++ (t :: ts').take (i + 1) := by
        rw [List.take_succ_cons, List.append_assoc, List.singleton_append]
      refine ⟨l2, ?_, ?_, ?_⟩
      · rw [e1, e2]
        exact hl2
      · rw [e1]
        simpa using hs2
      · simpa using hn2
    have hfail' : sess ((step + 1) + ts'.length) ((ids ++ [t]) ++ ts')
        = Except.error () := by
      have e3 : (step + 1) + ts'.length = step + (t :: ts').length := by
        simp only [List.length_cons]
        omega
      have e4 : (ids ++ [t]) ++ ts' = ids ++ (t :: ts') := by
        rw [List.append_assoc, List.singleton_append]
      rw [e3, e4]
      exact hfail
    have hfuel' : ts'.length < f := by
      simp only [List.length_cons] at hfuel
      omega
    rw [ih f (step + 1) (ids ++ [t]) hsteps' hfail' hfuel']
    simp [List.append_assoc]

theorem ollama_hit (o : OllamaEngine) (backend : OllamaBackend)
    (prompt : String) (mnt? : Option ℕ) (temp? topP? : Option ℚ)
    (v : String)
    (h : List.lookup (ollamaCacheKey prompt (pyOrNat mnt? o.maxNewTokens)
      (pyOrRat temp? o.temperature)) o.cache = some v) :
    o.generate backend prompt mnt? temp? topP? true =
      (Except.ok v, { o with cacheHits := o.cacheHits + 1 }, 0) := by
  simp [OllamaEngine.generate, h]

theorem ollama_miss_ok (o : OllamaEngine) (backend : OllamaBackend)
    (prompt : String) (mnt? : Option ℕ) (temp? topP? : Option ℚ)
    (text : String)
    (h : List.lookup (ollamaCacheKey prompt (pyOrNat mnt? o.maxNewTokens)
      (pyOrRat temp? o.temperature)) o.cache = none)
    (hb : backend prompt (pyOrNat mnt? o.maxNewTokens)
      (pyOrRat temp? o.temperature) (pyOrRat topP? (9/10))
      = Except.ok text) :
    o.generate backend prompt mnt? temp? topP? true =
      (Except.ok text,
        { o with
          cacheMisses := o.cacheMisses + 1
          cache := dictSet o.cache
            (ollamaCacheKey prompt (pyOrNat mnt? o.maxNewTokens)
              (pyOrRat temp? o.temperature)) text }, 1) := by
  simp [OllamaEngine.generate, h, hb]

theorem ollama_miss_error (o : OllamaEngine) (backend : OllamaBackend)
    (prompt : String) (mnt? : Option ℕ) (temp? topP? : Option ℚ)
    (er : Unit)
    (h : List.lookup (ollamaCacheKey prompt (pyOrNat mnt? o.maxNewTokens)
      (pyOrRat temp? o.temperature)) o.cache = none)
    (hb : backend prompt (pyOrNat mnt? o.maxNewTokens)
      (pyOrRat temp? o.temperature) (pyOrRat topP? (9/10))
      = Except.error er) :
    o.generate backend prompt mnt? temp? topP? true =
      (Except.error er, { o with cacheMisses := o.cacheMisses + 1 }, 1) := by
  simp [OllamaEngine.generate, h, hb]

/-- C2 (code bug): Scenario B fails on the code.  With budget 100,
`put("a", 60)`; `put("b", 60)` leaves BOTH entries live with total tracked
size 120 > 100: the eviction loop of `put` only looks at the
pre-insertion size, so an insertion that overflows the budget is never
compensated, and the overflow persists after `put` returns, contradicting
the documented "maximum cache size" and the spec invariant. -/
theorem c2_budget_overflow :
    totalSize ((((KVCacheManager.mk 100
      ([] : List (String × NDArray Unit)) 0 0).put "a"
      (NDArray.mk 60 ())).put "b" (NDArray.mk 60 ())).cache) = 120 ∧
    100 < totalSize ((((KVCacheManager.mk 100
      ([] : List (String × NDArray Unit)) 0 0).put "a"
      (NDArray.mk 60 ())).put "b" (NDArray.mk 60 ())).cache) ∧
    List.lookup "a" ((((KVCacheManager.mk 100
      ([] : List (String × NDArray Unit)) 0 0).put "a"
      (NDArray.mk 60 ())).put "b" (NDArray.mk 60 ())).cache)
      = some (NDArray.mk 60 ()) ∧
    List.lookup "b" ((((KVCacheManager.mk 100
      ([] : List (String × NDArray Unit)) 0 0).put "a"
      (NDArray.mk 60 ())).put "b" (NDArray.mk 60 ())).cache)
      = some (NDArray.mk 60 ()) := by decide

/-- C4: for every non-empty logits vector, temperature > 0 and
0 < nucleus_p ≤ 1, the kept nucleus is non-empty, the sampled token is a
valid vocabulary index, the cumulative softmax probability of the kept
set is at least nucleus_p (and exactly 1 when the whole vocabulary is
kept), and a vocabulary of size 1 always yields its single token. -/
theorem c4_sampling_validity (E : ℚ → ℚ) (hE : ∀ x, 0 < E x)
    (logits : List ℚ) (hl : logits ≠ []) (temperature topP : ℚ)
    (htemp : 0 < temperature) (hp0 : 0 < topP) (hp1 : topP ≤ 1) (r : ℕ) :
    sampleNucleus E logits temperature topP ≠ [] ∧
    sampleToken E logits temperature topP r < logits.length ∧
    topP ≤ ((sampleNucleus E logits temperature topP).map
      (fun i =>
        (softmax E (scaledLogits logits temperature)).getD i 0)).sum ∧
    ((sampleNucleus E logits temperature topP).length = logits.length →
      ((sampleNucleus E logits temperature topP).map
        (fun i =>
          (softmax E (scaledLogits logits temperature)).getD i 0)).sum
        = 1) ∧
    (logits.length = 1 → sampleToken E logits temperature topP r = 0) := by
  obtain ⟨h1, h2, h3, h4⟩ :=
    sampleNucleus_spec E hE logits hl temperature topP hp1
  have hmem := sampleToken_mem_nucleus E logits temperature topP r h1
  have hlt := h2 _ hmem
  exact ⟨h1, hlt, h3, h4, fun hone => by omega⟩

/-- Witness for C4 at the one-token vocabulary `[0]`, temperature 1,
nucleus threshold 1 and pick 0. -/
theorem c4_witness :
    sampleNucleus (fun _ => 1) [0] 1 1 ≠ [] ∧
    sampleToken (fun _ => 1) [0] 1 1 0 < ([(0 : ℚ)] : List ℚ).length ∧
    (1 : ℚ) ≤ ((sampleNucleus (fun _ => 1) [0] 1 1).map
      (fun i =>
        (softmax (fun _ => 1) (scaledLogits [0] 1)).getD i 0)).sum ∧
    ((sampleNucleus (fun _ => 1) [0] 1 1).length
        = ([(0 : ℚ)] : List ℚ).length →
      ((sampleNucleus (fun _ => 1) [0] 1 1).map
        (fun i =>
          (softmax (fun _ => 1) (scaledLogits [0] 1)).getD i 0)).sum
        = 1) ∧
    (([(0 : ℚ)] : List ℚ).length = 1 →
      sampleToken (fun _ => 1) [0] 1 1 0 = 0) :=
  c4_sampling_validity (fun _ => 1) (fun _ => one_pos) [0] (by decide)
    1 1 (by decide) (by decide) (by decide) 0

/-- C5: eviction always removes the oldest-inserted remaining entries
(the eviction loop returns a drop of the current insertion-ordered entry
list, i.e. evicts a prefix, oldest first), and `get` leaves the entry
list — hence the eviction order — completely unchanged. -/
theorem c5_fifo_eviction_order :
    (∀ (α : Type) (m : KVCacheManager α) (key : String),
      ((m.get key).2).cache = m.cache) ∧
    (∀ (α : Type) (budget : ℕ) (c : List (String × NDArray α)),
      ∃ n, evictLoop budget c = c.drop n) :=
  ⟨fun _ m key => get_snd_cache m key,
    fun _ budget c => evictLoop_eq_drop budget c⟩

/-- C10 counterexample: `put` on a present key does NOT always keep its
insertion-order position.  Budget 100: `put a 60; put b 60` leaves the
over-budget dict `[a, b]` (see C2); the overwriting `put a 10` first
EVICTS `a` (oldest) to get under budget and then re-appends it, giving
key order `[b, a]` — the overwritten entry's age was refreshed.  A later
over-budget `put` then evicts `b` while the older-by-first-insertion `a`
survives, contradicting the claimed FIFO-by-first-insertion order. -/
theorem c10_counterexample :
    (((((KVCacheManager.mk 100 ([] : List (String × NDArray Unit)) 0 0).put
      "a" (NDArray.mk 60 ())).put "b" (NDArray.mk 60 ())).put
      "a" (NDArray.mk 10 ())).cache.map Prod.fst = ["b", "a"]) ∧
    ((((((KVCacheManager.mk 100
      ([] : List (String × NDArray Unit)) 0 0).put
      "a" (NDArray.mk 60 ())).put "b" (NDArray.mk 60 ())).put
      "a" (NDArray.mk 10 ())).put "c" (NDArray.mk 60 ())).put
      "d" (NDArray.mk 10 ())).cache.map Prod.fst = ["a", "c", "d"] := by
  decide

/-- C10 (amended): when the pre-`put` total tracked size is within budget
(so the eviction pass is a no-op), overwriting a present key replaces its
value and leaves the insertion order — hence its eviction position —
unchanged.  (If the cache is over budget, the eviction pass may remove
the key and the insertion re-appends it at the newest position,
refreshing its age; see the counterexample.) -/
theorem c10_overwrite_keeps_position {α : Type} (m : KVCacheManager α)
    (key : String) (v : NDArray α)
    (hsize : totalSize m.cache ≤ m.maxCacheSize)
    (hmem : (List.lookup key m.cache).isSome = true) :
    (m.put key v).cache.map Prod.fst = m.cache.map Prod.fst ∧
    List.lookup key (m.put key v).cache = some v := by
  obtain ⟨w, hw⟩ := Option.isSome_iff_exists.mp hmem
  have hany := any_of_lookup_eq_some key w m.cache hw
  show (dictSet (evictLoop m.maxCacheSize m.cache) key v).map Prod.fst
      = m.cache.map Prod.fst ∧
    List.lookup key (dictSet (evictLoop m.maxCacheSize m.cache) key v)
      = some v
  rw [evictLoop_of_le m.maxCacheSize m.cache hsize]
  exact ⟨dictSet_keys_of_mem key v m.cache hany,
    lookup_dictSet_self key v m.cache⟩

/-- Witness for C10 (amended) on a within-budget two-entry cache. -/
theorem c10_witness :
    (totalSize c10CacheFixture.cache ≤ c10CacheFixture.maxCacheSize ∧
      (List.lookup "a" c10CacheFixture.cache).isSome = true) ∧
    ((c10CacheFixture.put "a" (NDArray.mk 10 ())).cache.map Prod.fst
        = c10CacheFixture.cache.map Prod.fst ∧
      List.lookup "a" (c10CacheFixture.put "a" (NDArray.mk 10 ())).cache
        = some (NDArray.mk 10 ())) :=
  ⟨⟨by decide, by decide⟩,
    c10_overwrite_keeps_position c10CacheFixture "a" (NDArray.mk 10 ())
      (by decide) (by decide)⟩

/-- C1 counterexample: on a concrete engine whose scoring succeeds at
step 0 and raises at step 1, `generate` returns the decoded truncated
sequence (prompt ids plus the single sampled token) as an ordinary
SUCCESS result — `"[5, 0]"`, the decode of `encode "p" ++ [0]` — after 2
scoring invocations, instead of a `ScoringFailure` error. -/
theorem c1_counterexample :
    (cexEngineFailAt1.generate (fun _ => 1) (fun _ => 0) "p" none none none
      false).1 = GenResult.text "[5, 0]" ∧
    (cexEngineFailAt1.generate (fun _ => 1) (fun _ => 0) "p" none none none
      false).2.2 = 2 ∧
    GenResult.text "[5, 0]"
      = GenResult.text
          (cexTokNoEos.decode (cexTokNoEos.encode "p" ++ [0])) := by
  decide

/-- C1 (amended): if the scoring collaborator raises on a decode step
after `ts.length` successful non-EOS sampling steps (any number below the
token budget, with `ts` the sampled tokens), `generate` swallows the
exception, breaks the loop, and returns the decode of the prompt ids plus
those sampled tokens as a normal text result after `ts.length + 1`
scoring invocations — never an error value; moreover, when `use_cache`
holds (and the cache lookup missed), this truncated text is stored in the
response cache under the request fingerprint. -/
theorem c1_scoring_failure_truncates (e : NPUEngine) (sess : Session)
    (tok : Tokenizer) (E : ℚ → ℚ) (rp : ℕ → ℕ) (prompt : String)
    (mnt? : Option ℕ) (temp? topP? : Option ℚ) (ts : List ℕ) (uc : Bool)
    (hsess : e.session = some sess) (htok : e.tokenizer = some tok)
    (hsteps : ∀ i, i < ts.length →
      ∃ l, sess i (tok.encode prompt ++ ts.take i) = Except.ok l ∧
        sampleToken E l (pyOrRat temp? e.temperature)
          (pyOrRat topP? e.topP) (rp i) = ts.getD i 0 ∧
        ts.getD i 0 ≠ tok.eosTokenId)
    (hfail : sess ts.length (tok.encode prompt ++ ts) = Except.error ())
    (hmnt : ts.length < pyOrNat mnt? e.maxNewTokens)
    (hmiss : uc = true →
      List.lookup (mkCacheKey prompt (pyOrNat mnt? e.maxNewTokens)
        (pyOrRat temp? e.temperature) (pyOrRat topP? e.topP))
        e.kvCache.cache = none) :
    (e.generate E rp prompt mnt? temp? topP? uc).1
      = GenResult.text (tok.decode (tok.encode prompt ++ ts)) ∧
    (e.generate E rp prompt mnt? temp? topP? uc).2.2 = ts.length + 1 ∧
    (uc = true →
      List.lookup (mkCacheKey prompt (pyOrNat mnt? e.maxNewTokens)
        (pyOrRat temp? e.temperature) (pyOrRat topP? e.topP))
        (e.generate E rp prompt mnt? temp? topP? uc).2.1.kvCache.cache
      = some (NDArray.mk
          (strNbytes (tok.decode (tok.encode prompt ++ ts)))
          (tok.decode (tok.encode prompt ++ ts)))) := by
  have hres : decodeLoop sess tok.eosTokenId E rp
      (pyOrRat temp? e.temperature) (pyOrRat topP? e.topP)
      (pyOrNat mnt? e.maxNewTokens) 0 (tok.encode prompt)
      = (tok.encode prompt ++ ts, ts.length + 1) := by
    apply decodeLoop_run_then_fail
    · intro i hi
      simpa using hsteps i hi
    · simpa using hfail
    · exact hmnt
  cases uc with
  | false =>
    rw [generate_noCache e tok E rp prompt mnt? temp? topP? htok]
    refine ⟨by simp [generateBody, hsess, hres],
      by simp [generateBody, hsess, hres], ?_⟩
    intro h
    exact absurd h (by simp)
  | true =>
    rw [generate_cache_miss e tok E rp prompt mnt? temp? topP? htok
      (hmiss rfl)]
    refine ⟨by simp [generateBody, hsess, hres],
      by simp [generateBody, hsess, hres], ?_⟩
    intro _
    simp only [generateBody, hsess, hres]
    exact lookup_dictSet_self _ _ _

/-- Witness for C1 (amended) on the concrete fail-at-step-1 engine with
caching enabled: one successful step samples token 0, the second scoring
invocation raises, and the truncated decode is returned and cached. -/
theorem c1_witness :
    (cexEngineFailAt1.generate (fun _ => 1) (fun _ => 0) "p" none none none
      true).1
      = GenResult.text
          (cexTokNoEos.decode (cexTokNoEos.encode "p" ++ [0])) ∧
    (cexEngineFailAt1.generate (fun _ => 1) (fun _ => 0) "p" none none none
      true).2.2 = 2 ∧
    (true = true →
      List.lookup (mkCacheKey "p" 10 (7/10) (9/10))
        (cexEngineFailAt1.generate (fun _ => 1) (fun _ => 0) "p" none none
          none true).2.1.kvCache.cache
      = some (NDArray.mk
          (strNbytes (cexTokNoEos.decode (cexTokNoEos.encode "p" ++ [0])))
          (cexTokNoEos.decode (cexTokNoEos.encode "p" ++ [0])))) :=
  c1_scoring_failure_truncates cexEngineFailAt1 cexSessionFailAt1
    cexTokNoEos (fun _ => 1) (fun _ => 0) "p" none none none [0] true
    rfl rfl
    (by
      intro i hi
      have h0 : i = 0 := Nat.lt_one_iff.mp (by simpa using hi)
      subst h0
      exact ⟨[0], rfl, by decide, by decide⟩)
    rfl (by decide) (fun _ => rfl)

/-- C7 counterexample: with a stub scoring collaborator whose step-1
sample is the EOS token, the decode loop does stop after exactly one
scoring invocation, but the result is the decode of the PROMPT ids plus
the EOS token (`"[5, 0]"`), not a one-token decoded string: the claimed
`decode [eos]` value differs. -/
theorem c7_counterexample :
    (cexEngineEos.generate (fun _ => 1) (fun _ => 0) "p" none none none
      false).1 = GenResult.text "[5, 0]" ∧
    (cexEngineEos.generate (fun _ => 1) (fun _ => 0) "p" none none none
      false).2.2 = 1 ∧
    GenResult.text "[5, 0]"
      ≠ GenResult.text (cexTokEos.decode [cexTokEos.eosTokenId]) := by
  decide

/-- C7 (amended): when the token sampled at step 0 is the EOS token, the
loop stops after exactly one scoring invocation, and the result is the
decode of the full prompt token ids plus the sampled EOS token (not a
one-token string). -/
theorem c7_eos_stops_after_one (e : NPUEngine) (sess : Session)
    (tok : Tokenizer) (E : ℚ → ℚ) (rp : ℕ → ℕ) (prompt : String)
    (mnt? : Option ℕ) (temp? topP? : Option ℚ) (l0 : List ℚ)
    (hsess : e.session = some sess) (htok : e.tokenizer = some tok)
    (h0 : sess 0 (tok.encode prompt) = Except.ok l0)
    (he : sampleToken E l0 (pyOrRat temp? e.temperature)
      (pyOrRat topP? e.topP) (rp 0) = tok.eosTokenId)
    (hmnt : 1 ≤ pyOrNat mnt? e.maxNewTokens) :
    (e.generate E rp prompt mnt? temp? topP? false).1
      = GenResult.text
          (tok.decode (tok.encode prompt ++ [tok.eosTokenId])) ∧
    (e.generate E rp prompt mnt? temp? topP? false).2.2 = 1 := by
  have hres : decodeLoop sess tok.eosTokenId E rp
      (pyOrRat temp? e.temperature) (pyOrRat topP? e.topP)
      (pyOrNat mnt? e.maxNewTokens) 0 (tok.encode prompt)
      = (tok.encode prompt ++ [tok.eosTokenId], 1) := by
    obtain ⟨m, hm⟩ : ∃ m, pyOrNat mnt? e.maxNewTokens = m + 1 :=
      ⟨pyOrNat mnt? e.maxNewTokens - 1, by omega⟩
    rw [hm, decodeLoop_eos sess tok.eosTokenId E rp
      (pyOrRat temp? e.temperature) (pyOrRat topP? e.topP) m 0
      (tok.encode prompt) l0 h0 he]
  rw [generate_noCache e tok E rp prompt mnt? temp? topP? htok]
  constructor
  · simp [generateBody, hsess, hres]
  · simp [generateBody, hsess, hres]

/-- Witness for C7 (amended) on the concrete EOS-at-step-1 engine. -/
theorem c7_witness :
    (cexEngineEos.generate (fun _ => 1) (fun _ => 0) "p" none none none
      false).1
      = GenResult.text
          (cexTokEos.decode
            (cexTokEos.encode "p" ++ [cexTokEos.eosTokenId])) ∧
    (cexEngineEos.generate (fun _ => 1) (fun _ => 0) "p" none none none
      false).2.2 = 1 :=
  c7_eos_stops_after_one cexEngineEos cexSessionOk cexTokEos
    (fun _ => 1) (fun _ => 0) "p" none none none [0]
    rfl rfl rfl (by decide) (by decide)

/-- C9: with the session absent (context binary missing or session
creation failed at construction), `generate` does not fail: provided the
response-cache lookup does not intercept the call, it returns the
simulation-mode placeholder — a string starting with
`"[SIMULATION MODE]"` — with zero scoring invocations. -/
theorem c9_simulation_mode (e : NPUEngine) (tok : Tokenizer) (E : ℚ → ℚ)
    (rp : ℕ → ℕ) (prompt : String) (mnt? : Option ℕ)
    (temp? topP? : Option ℚ) (uc : Bool)
    (hsess : e.session = none) (htok : e.tokenizer = some tok)
    (hmiss : uc = true →
      List.lookup (mkCacheKey prompt (pyOrNat mnt? e.maxNewTokens)
        (pyOrRat temp? e.temperature) (pyOrRat topP? e.topP))
        e.kvCache.cache = none) :
    (e.generate E rp prompt mnt? temp? topP? uc).1
      = GenResult.text (mockResponse prompt) ∧
    (e.generate E rp prompt mnt? temp? topP? uc).2.2 = 0 ∧
    ∃ rest, mockResponse prompt = "[SIMULATION MODE]" ++ rest := by
  have hrest : ∃ rest, mockResponse prompt = "[SIMULATION MODE]" ++ rest := by
    refine ⟨" Mock response to prompt: '" ++ prompt.take 100 ++ "...'\n\n"
      ++ "This is a simulated response. To use actual NPU acceleration:\n"
      ++ "1. Quantize your model using QNN tools\n"
      ++ "2. Set QNN_MODEL_CONTEXT environment variable\n"
      ++ "3. Ensure libQnnHtp.so is in LD_LIBRARY_PATH", ?_⟩
    unfold mockResponse
    simp only [String.append_assoc]
    rw [show "[SIMULATION MODE] Mock response to prompt: '"
      = "[SIMULATION MODE]" ++ " Mock response to prompt: '" from by decide,
      String.append_assoc]
  cases uc with
  | false =>
    rw [generate_noCache e tok E rp prompt mnt? temp? topP? htok]
    exact ⟨by simp [generateBody, hsess], by simp [generateBody, hsess],
      hrest⟩
  | true =>
    rw [generate_cache_miss e tok E rp prompt mnt? temp? topP? htok
      (hmiss rfl)]
    exact ⟨by simp [generateBody, hsess], by simp [generateBody, hsess],
      hrest⟩

/-- Witness for C9 on the concrete simulation-mode engine with an empty
cache and `use_cache = true`. -/
theorem c9_witness :
    (cexEngineSim.generate (fun _ => 1) (fun _ => 0) "p" none none none
      true).1 = GenResult.text (mockResponse "p") ∧
    (cexEngineSim.generate (fun _ => 1) (fun _ => 0) "p" none none none
      true).2.2 = 0 ∧
    ∃ rest, mockResponse "p" = "[SIMULATION MODE]" ++ rest :=
  c9_simulation_mode cexEngineSim cexTokNoEos (fun _ => 1) (fun _ => 0)
    "p" none none none true rfl rfl (fun _ => rfl)

/-- C3 counterexample: `generate` with `temperature = -1` does NOT return
an `InvalidRequest` error.  On a concrete engine it proceeds normally: a
text result is returned, 2 scoring invocations occur, the miss counter is
bumped and a cache entry is created before returning. -/
theorem c3_counterexample :
    (cexEngineOk.generate (fun _ => 1) (fun _ => 0) "p" (some 2) (some (-1))
      none true).1 = GenResult.text "[5, 0, 0]" ∧
    (cexEngineOk.generate (fun _ => 1) (fun _ => 0) "p" (some 2) (some (-1))
      none true).2.2 = 2 ∧
    (cexEngineOk.generate (fun _ => 1) (fun _ => 0) "p" (some 2) (some (-1))
      none true).2.1.kvCache.cacheMisses = 1 ∧
    (cexEngineOk.generate (fun _ => 1) (fun _ => 0) "p" (some 2) (some (-1))
      none true).2.1.kvCache.cache.length = 1 := by
  decide

/-- C3 (amended): `generate` performs no parameter validation at all — for
every parameter assignment (including `temperature = -1`) it returns a
text result, never an `InvalidRequest`-style error, as long as the
tokenizer is loaded; the standalone `validate_generation_params` (which
does reject `-1`) is never invoked by it. -/
theorem c3_no_validation :
    (∀ (e : NPUEngine) (tok : Tokenizer) (E : ℚ → ℚ) (rp : ℕ → ℕ)
      (prompt : String) (mnt? : Option ℕ) (temp? topP? : Option ℚ)
      (uc : Bool), e.tokenizer = some tok →
      ∃ s, (e.generate E rp prompt mnt? temp? topP? uc).1
        = GenResult.text s) ∧
    (validateGenerationParams none (some (-1)) none).1 = false := by
  constructor
  · intro e tok E rp prompt mnt? temp? topP? uc htok
    cases uc with
    | false =>
      rw [generate_noCache e tok E rp prompt mnt? temp? topP? htok]
      exact generateBody_text e tok E rp prompt _ _ _ _ e.kvCache false
    | true =>
      cases h1 : List.lookup (mkCacheKey prompt
        (pyOrNat mnt? e.maxNewTokens) (pyOrRat temp? e.temperature)
        (pyOrRat topP? e.topP)) e.kvCache.cache with
      | some v =>
        exact ⟨v.data, by
          rw [generate_cache_hit e tok E rp prompt mnt? temp? topP? v
            htok h1]⟩
      | none =>
        rw [generate_cache_miss e tok E rp prompt mnt? temp? topP? htok h1]
        exact generateBody_text e tok E rp prompt _ _ _ _ _ true
  · decide

/-- Witness for C3 (amended): the universal part applied to the concrete
engine with `temperature = -1`. -/
theorem c3_witness :
    ∃ s, (cexEngineOk.generate (fun _ => 1) (fun _ => 0) "p" (some 2)
      (some (-1)) none true).1 = GenResult.text s :=
  c3_no_validation.1 cexEngineOk cexTokNoEos (fun _ => 1) (fun _ => 0)
    "p" (some 2) (some (-1)) none true rfl

/-- C8 counterexample: `temperature = 0` is NOT rejected: the call
succeeds, and the Python `temperature or self.temperature` resolution
silently replaces 0 with the engine default 0.7 — visible in the cache
fingerprint the request is stored under, which embeds `7/10`, not `0`. -/
theorem c8_counterexample :
    (cexEngineOk.generate (fun _ => 1) (fun _ => 0) "p" (some 2) (some 0)
      none true).1 = GenResult.text "[5, 0, 0]" ∧
    (cexEngineOk.generate (fun _ => 1) (fun _ => 0) "p" (some 2) (some 0)
      none true).2.1.kvCache.cache.map Prod.fst
      = [mkCacheKey "p" 2 (7/10) (9/10)] ∧
    mkCacheKey "p" 2 (7/10) (9/10) = "p_2_7/10_9/10" := by
  decide

/-- C8 (amended): a zero temperature is never rejected; `generate` treats
`temperature = 0` exactly like an omitted temperature (Python `or`
falsiness), i.e. it is silently replaced by the engine default before
sampling, while the never-invoked `validate_generation_params` would have
rejected 0. -/
theorem c8_zero_temperature_replaced :
    (∀ (e : NPUEngine) (E : ℚ → ℚ) (rp : ℕ → ℕ) (prompt : String)
      (mnt? : Option ℕ) (topP? : Option ℚ) (uc : Bool),
      e.generate E rp prompt mnt? (some 0) topP? uc
        = e.generate E rp prompt mnt? none topP? uc) ∧
    (validateGenerationParams none (some 0) none).1 = false := by
  constructor
  · intro e E rp prompt mnt? topP? uc
    cases htok : e.tokenizer with
    | none => simp [NPUEngine.generate, htok]
    | some tok => simp [NPUEngine.generate, htok, pyOrRat]
  · decide

/-- C6: two consecutive `generate` calls with identical parameters and
response caching enabled return the same result on the second call with
zero scoring invocations — for the NPU engine (any state with a loaded
tokenizer) and for the Ollama engine (any state, provided the first call
succeeded). -/
theorem c6_response_cache_idempotent :
    (∀ (e : NPUEngine) (E : ℚ → ℚ) (rp : ℕ → ℕ) (prompt : String)
      (mnt? : Option ℕ) (temp? topP? : Option ℚ),
      e.tokenizer.isSome = true →
      ((e.generate E rp prompt mnt? temp? topP? true).2.1.generate E rp
          prompt mnt? temp? topP? true).1
        = (e.generate E rp prompt mnt? temp? topP? true).1 ∧
      ((e.generate E rp prompt mnt? temp? topP? true).2.1.generate E rp
          prompt mnt? temp? topP? true).2.2 = 0) ∧
    (∀ (o : OllamaEngine) (backend : OllamaBackend) (prompt : String)
      (mnt? : Option ℕ) (temp? topP? : Option ℚ) (t : String),
      (o.generate backend prompt mnt? temp? topP? true).1 = Except.ok t →
      ((o.generate backend prompt mnt? temp? topP? true).2.1.generate
          backend prompt mnt? temp? topP? true).1 = Except.ok t ∧
      ((o.generate backend prompt mnt? temp? topP? true).2.1.generate
          backend prompt mnt? temp? topP? true).2.2 = 0) := by
  constructor
  · intro e E rp prompt mnt? temp? topP? htok
    obtain ⟨tok, htok'⟩ := Option.isSome_iff_exists.mp htok
    cases h1 : List.lookup (mkCacheKey prompt (pyOrNat mnt? e.maxNewTokens)
      (pyOrRat temp? e.temperature) (pyOrRat topP? e.topP))
      e.kvCache.cache with
    | some v =>
      rw [generate_cache_hit e tok E rp prompt mnt? temp? topP? v htok' h1]
      exact generate_hit_projections _ tok E rp prompt mnt? temp? topP? v
        htok' h1
    | none =>
      have hg1 := generate_cache_miss e tok E rp prompt mnt? temp? topP?
        htok' h1
      obtain ⟨s, n, hbody⟩ := generateBody_spec_cached e tok E rp prompt
        (pyOrNat mnt? e.maxNewTokens) (pyOrRat temp? e.temperature)
        (pyOrRat topP? e.topP)
        (mkCacheKey prompt (pyOrNat mnt? e.maxNewTokens)
          (pyOrRat temp? e.temperature) (pyOrRat topP? e.topP))
        { e.kvCache with cacheMisses := e.kvCache.cacheMisses + 1 }
      rw [hg1, hbody]
      exact generate_hit_projections _ tok E rp prompt mnt? temp? topP?
        (NDArray.mk (strNbytes s) s) htok' (lookup_dictSet_self _ _ _)
  · intro o backend prompt mnt? temp? topP? t hok
    cases h1 : List.lookup (ollamaCacheKey prompt
      (pyOrNat mnt? o.maxNewTokens) (pyOrRat temp? o.temperature))
      o.cache with
    | some v =>
      have hg1 := ollama_hit o backend prompt mnt? temp? topP? v h1
      rw [hg1] at hok ⊢
      have hg2 := ollama_hit { o with cacheHits := o.cacheHits + 1 }
        backend prompt mnt? temp? topP? v h1
      rw [hg2]
      exact ⟨hok, rfl⟩
    | none =>
      cases hb : backend prompt (pyOrNat mnt? o.maxNewTokens)
        (pyOrRat temp? o.temperature) (pyOrRat topP? (9/10)) with
      | error er =>
        have hg1 := ollama_miss_error o backend prompt mnt? temp? topP? er
          h1 hb
        rw [hg1] at hok
        exact absurd hok (by simp)
      | ok text =>
        have hg1 := ollama_miss_ok o backend prompt mnt? temp? topP? text
          h1 hb
        rw [hg1] at hok ⊢
        have h2 : List.lookup (ollamaCacheKey prompt
            (pyOrNat mnt? o.maxNewTokens) (pyOrRat temp? o.temperature))
            (dictSet o.cache (ollamaCacheKey prompt
              (pyOrNat mnt? o.maxNewTokens)
              (pyOrRat temp? o.temperature)) text)
            = some text := lookup_dictSet_self _ _ _
        have hg2 := ollama_hit
          { o with
            cacheMisses := o.cacheMisses + 1
            cache := dictSet o.cache (ollamaCacheKey prompt
              (pyOrNat mnt? o.maxNewTokens)
              (pyOrRat temp? o.temperature)) text }
          backend prompt mnt? temp? topP? text h2
        rw [hg2]
        exact ⟨hok, rfl⟩

/-- Witness for C6: the NPU part on the concrete simulation-mode engine
(first call caches the mock response, second call serves it with zero
scoring invocations), and the Ollama part on a fresh engine with a stub
backend. -/
theorem c6_witness :
    (((cexEngineSim.generate (fun _ => 1) (fun _ => 0) "p" none none none
        true).2.1.generate (fun _ => 1) (fun _ => 0) "p" none none none
        true).1
      = (cexEngineSim.generate (fun _ => 1) (fun _ => 0) "p" none none none
        true).1 ∧
    ((cexEngineSim.generate (fun _ => 1) (fun _ => 0) "p" none none none
        true).2.1.generate (fun _ => 1) (fun _ => 0) "p" none none none
        true).2.2 = 0) ∧
    (((cexOllama.generate cexOllamaBackend "p" none none none
        true).2.1.generate cexOllamaBackend "p" none none none true).1
      = Except.ok "hi" ∧
    ((cexOllama.generate cexOllamaBackend "p" none none none
        true).2.1.generate cexOllamaBackend "p" none none none
        true).2.2 = 0) :=
  ⟨c6_response_cache_idempotent.1 cexEngineSim (fun _ => 1) (fun _ => 0)
      "p" none none none rfl,
    c6_response_cache_idempotent.2 cexOllama cexOllamaBackend "p" none
      none none "hi" rfl⟩
